import Mathlib

/-!
Verification of the mouse-stay-up tray application core
(`internal/tray/tray.go`), a shallow embedding in Lean 4.

The repository's substantive logic lives in `onReady`: a systray menu
with Enable/Disable items, an interval submenu, a working-hours
submenu, and a single goroutine that multiplexes click events and
mutates the shared `config.Config`.  The `config` and `mouse` packages
are not part of the sources at hand; the definitions below that stand
for them are modelled from the specification and say so in their doc
comments.  Everything else is translated directly from `tray.go`.
-/

namespace MouseStayUp

/-- Modelled from the spec (the `config` package is not among the
sources): the sentinel working-hours label meaning "always permitted".
-/
def alwaysLabel : String := "always"

/-- Config State (`config.Config`): operational settings of the app.
Fields follow the spec's data model: `enabled`, `sleepInterval`
(seconds, with `-1` the "random 10-60 sec" sentinel),
`workingHoursInterval` (the selected label), `workingHours` (the
catalog of labels) and `gitRepo`. -/
structure Config where
  enabled : Bool
  sleepInterval : Int
  workingHoursInterval : String
  workingHours : List String
  gitRepo : String
  deriving Repr, DecidableEq

/-- The interval keys registered by `onReady` via `addIntervalItem`:
`-1` ("10-60 sec"), `30` ("30 sec"), `60` ("60 sec"), in source order. -/
def intervalKeys : List Int := [-1, 30, 60]

/-- Modelled from the spec (the `config` package is not among the
sources): `SetSleepIntervalSec` stores an allowed enumerated value
exactly; an out-of-set value is rejected at the setter boundary with
the prior state retained (spec sections 4.1 and 7). -/
def Config.setSleepIntervalSec (c : Config) (v : Int) : Config :=
  if v ∈ intervalKeys then { c with sleepInterval := v } else c

/-- Modelled from the spec (the `config` package is not among the
sources): `SetWorkingHoursInterval` stores a label that is in the
catalog or is the "always" sentinel; any other label is rejected with
the prior state retained (spec sections 4.1 and 7). -/
def Config.setWorkingHoursInterval (c : Config) (l : String) : Config :=
  if l ∈ c.workingHours ∨ l = alwaysLabel then
    { c with workingHoursInterval := l }
  else c

/-!  ## Menu state

`tray.go` keeps `intervalItems : map[int]*systray.MenuItem` and
`workingHoursMenuItems : map[string]*systray.MenuItem`.  We model each
map as an association list from the key to the item's checked flag
(the only per-item state the claims mention), plus the coarse
visible/enabled state of the top-level items the event loop toggles. -/

/-- The whole tray state: the shared config, the UI state of the menu
items the event loop manipulates, and a count of Movement Scheduler
runs launched so far (each `go t.mouseController.MoveMouse()` bumps it;
nothing ever force-stops a run, matching the source, where disabling
only clears the flag). -/
structure TrayState where
  config : Config
  enableVisible : Bool
  disableVisible : Bool
  intervalMenuEnabled : Bool
  workingHoursMenuEnabled : Bool
  intervalChecks : List (Int × Bool)
  workingHoursChecks : List (String × Bool)
  schedulerStarts : Nat
  deriving Repr, DecidableEq

/-- `updateIntervalChecks` (tray.go): for every registered interval
item, check it when its key equals the selected interval, uncheck it
otherwise. -/
def updateIntervalChecks (selectedInterval : Int)
    (items : List (Int × Bool)) : List (Int × Bool) :=
  items.map fun p => (p.1, p.1 = selectedInterval)

/-- `updateNightModeIntervalChecks` (tray.go): for every registered
working-hours item, check it when its key equals the selected label,
uncheck it otherwise. -/
def updateNightModeIntervalChecks (selectedInterval : String)
    (items : List (String × Bool)) : List (String × Bool) :=
  items.map fun p => (p.1, p.1 = selectedInterval)

/-- The events multiplexed by the `select` loop in `onReady`, one
constructor per `case`. -/
inductive Event where
  | enable
  | disable
  | setInterval (v : Int)
  | setWorkingHours (l : String)
  | about
  | quit
  deriving Repr, DecidableEq

/-- One iteration of the `select` loop in `onReady`: the effect of
handling a single event on the tray state.  Translated case by case
from the goroutine body in `tray.go` (lines 102-133).  `about` only
opens a web page and `quit` only signals shutdown; neither touches the
state modelled here. -/
def handleEvent (s : TrayState) : Event → TrayState
  | .enable =>
      { s with
        config := { s.config with enabled := true }
        enableVisible := false
        disableVisible := true
        intervalMenuEnabled := true
        workingHoursMenuEnabled := true
        schedulerStarts := s.schedulerStarts + 1 }
  | .disable =>
      { s with
        config := { s.config with enabled := false }
        disableVisible := false
        enableVisible := true
        intervalMenuEnabled := false
        workingHoursMenuEnabled := false }
  | .setInterval v =>
      { s with
        config := s.config.setSleepIntervalSec v
        intervalChecks := updateIntervalChecks v s.intervalChecks }
  | .setWorkingHours l =>
      let c := s.config.setWorkingHoursInterval l
      { s with
        config := c
        workingHoursChecks :=
          updateNightModeIntervalChecks c.workingHoursInterval
            s.workingHoursChecks }
  | .about => s
  | .quit => s

/-- The event-coordination loop of `onReady`: drain the queued events
one at a time, handling each to completion before dequeuing the next;
`quit` terminates the loop (its `case` calls `systray.Quit()` and
`return`s).  Returns the final state together with the trace of events
actually handled, in handling order. -/
def runCoordinator (s : TrayState) : List Event → TrayState × List Event
  | [] => (s, [])
  | e :: rest =>
      match e with
      | .quit => (s, [Event.quit])
      | _ =>
          let out := runCoordinator (handleEvent s e) rest
          (out.1, e :: out.2)

/-!  ## Startup (`onReady` before the loop) -/

/-- `loadIcon` (tray.go): open the embedded `icon.png` and read it.
The embedding and the read are I/O; we model their combined outcome as
an `Option`: `none` when the asset is missing or unreadable, `some
data` otherwise. -/
def loadIcon (asset : Option (List Nat)) : Option (List Nat) := asset

/-- Look up a menu item in one of the keyed item maps.  A Go map
lookup with an absent key yields `nil`, and the subsequent
`.Check()` call dereferences it; `none` here marks that failure. -/
def lookupItem {α : Type} [DecidableEq α] :
    List (α × Bool) → α → Option Bool
  | [], _ => none
  | p :: rest, k => if p.1 = k then some p.2 else lookupItem rest k

/-- `item.Check()` applied to the result of a map lookup: fails
(`none`) when the lookup found no item, otherwise marks exactly that
key checked. -/
def checkLookedUpItem {α : Type} [DecidableEq α]
    (items : List (α × Bool)) (k : α) : Option (List (α × Bool)) :=
  match lookupItem items k with
  | none => none
  | some _ => some (items.map fun p => if p.1 = k then (p.1, true) else p)

/-- The interval item map right after the three `addIntervalItem`
calls in `onReady`: keys `-1`, `30`, `60`, all unchecked. -/
def initialIntervalItems : List (Int × Bool) :=
  intervalKeys.map fun k => (k, false)

/-- The working-hours item map right after the `addWorkingHoursItems`
loop in `onReady`: one unchecked item per catalog label. -/
def initialWorkingHoursItems (catalog : List String) :
    List (String × Bool) :=
  catalog.map fun l => (l, false)

/-- The startup part of `onReady`, up to spawning the event loop:
load the icon (panicking — `none` — on failure, before any menu item
exists), create the menu items, hide Enable or Disable according to
`config.Enabled`, register the interval and working-hours submenus,
check the items keyed by the initial config (a `nil` dereference —
`none` — if the key is absent), and launch one Movement Scheduler run
when enabled.  `none` means the process dies before the coordinator
loop: no menu state survives and no scheduler run exists. -/
def onReadyInit (asset : Option (List Nat)) (cfg : Config) :
    Option TrayState :=
  match loadIcon asset with
  | none => none
  | some _ =>
      match checkLookedUpItem initialIntervalItems cfg.sleepInterval,
          checkLookedUpItem (initialWorkingHoursItems cfg.workingHours)
            cfg.workingHoursInterval with
      | some ic, some wc =>
          some
            { config := cfg
              enableVisible := !cfg.enabled
              disableVisible := cfg.enabled
              intervalMenuEnabled := true
              workingHoursMenuEnabled := true
              intervalChecks := ic
              workingHoursChecks := wc
              schedulerStarts := if cfg.enabled then 1 else 0 }
      | _, _ => none

/-!  ## Time-Window Evaluator

Modelled from the spec: the evaluator package is not among the
sources.  A label encodes `"HH:MM-HH:MM"`; a time of day is minutes
since midnight. -/

/-- Split a character list on a separator, keeping empty groups
(the behaviour of Go's `strings.Split` on its separator). -/
def splitOnChar (sep : Char) : List Char → List (List Char)
  | [] => [[]]
  | c :: cs =>
      match splitOnChar sep cs with
      | [] => if c = sep then [[], []] else [[c]]
      | g :: gs => if c = sep then [] :: g :: gs else (c :: g) :: gs

/-- Read a nonempty all-digit character list as a decimal number. -/
def decNat? (cs : List Char) : Option Nat :=
  if cs ≠ [] ∧ cs.all Char.isDigit then
    some (cs.foldl (fun n c => n * 10 + (c.toNat - 48)) 0)
  else none

/-- Modelled from the spec: parse one `"HH:MM"` time-of-day into
minutes since midnight; `none` when the text is not a valid time. -/
def parseTimeOfDay (cs : List Char) : Option Nat :=
  match splitOnChar ':' cs with
  | [h, m] =>
      match decNat? h, decNat? m with
      | some hh, some mm =>
          if hh < 24 ∧ mm < 60 then some (hh * 60 + mm) else none
      | _, _ => none
  | _ => none

/-- Modelled from the spec: parse a label's encoded
`"start-end"` time-of-day range. -/
def parseRange (label : String) : Option (Nat × Nat) :=
  match splitOnChar '-' label.toList with
  | [a, b] =>
      match parseTimeOfDay a, parseTimeOfDay b with
      | some s, some e => some (s, e)
      | _, _ => none
  | _ => none

/-- Membership of a time-of-day in a half-open window `[start, end)`;
`start > end` means the window wraps past midnight. -/
def inWindow (start stop now : Nat) : Bool :=
  if start ≤ stop then decide (start ≤ now ∧ now < stop)
  else decide (start ≤ now ∨ now < stop)

/-- Modelled from the spec: the Time-Window Evaluator.  The "always"
sentinel always permits; otherwise movement is permitted iff the
current time-of-day falls within the label's `[start, end)` range; an
unparsable label fails closed to "not permitted". -/
def isPermitted (label : String) (now : Nat) : Bool :=
  if label = alwaysLabel then true
  else
    match parseRange label with
    | some (start, stop) => inWindow start stop now
    | none => false

/-!  ## Movement Scheduler

Modelled from the spec: `mouse.Controller.MoveMouse` is not among the
sources.  Each tick sleeps a wait duration, then re-reads the config
at wake: if no longer enabled the loop terminates; if outside the
permitted window it skips the primitive but keeps looping; otherwise
it invokes the movement primitive exactly once. -/

/-- Modelled from the spec: one Movement Scheduler run.  `enabledAt`
and `permittedAt` give the shared flag and the Time-Window Evaluator's
verdict as functions of absolute time; `t` is the run's start time and
`ds` the successive tick wait durations (the run is observed for
`ds.length` potential ticks).  Returns the times at which the movement
primitive is invoked. -/
def schedulerRun (enabledAt permittedAt : Nat → Bool) :
    Nat → List Nat → List Nat
  | _, [] => []
  | t, d :: ds =>
      let w := t + d
      if enabledAt w then
        if permittedAt w then
          w :: schedulerRun enabledAt permittedAt w ds
        else
          schedulerRun enabledAt permittedAt w ds
      else []

/-!  ## Auxiliary predicates and sample data -/

/-- Exactly one item of a keyed item map is checked. -/
def exactlyOneChecked {α : Type} (items : List (α × Bool)) : Prop :=
  (items.filter fun p => p.2).length = 1

instance exactlyOneCheckedDec {α : Type} (items : List (α × Bool)) :
    Decidable (exactlyOneChecked items) :=
  inferInstanceAs (Decidable ((items.filter fun p => p.2).length = 1))

/-- The item maps are keyed exactly as `onReady` builds them: the
interval map over `intervalKeys` and the working-hours map over the
catalog, whose labels are pairwise distinct (Go map keys). -/
def checksWellFormed (s : TrayState) : Prop :=
  s.intervalChecks.map Prod.fst = intervalKeys ∧
  s.workingHoursChecks.map Prod.fst = s.config.workingHours ∧
  s.config.workingHours.Nodup

/-- Click payloads originate from the registered menu items
(`createIntervalClicksChannel` and
`createWorkingHoursIntervalClicksChannel` forward only the keys of the
item maps), so a `setInterval` carries a registered interval and a
`setWorkingHours` a catalog label. -/
def eventInRange (s : TrayState) : Event → Prop
  | .setInterval v => v ∈ intervalKeys
  | .setWorkingHours l => l ∈ s.config.workingHours
  | _ => True

/-- A sample configuration used to instantiate hypotheses: disabled,
30-second interval, "always" working hours, a three-label catalog. -/
def sampleConfig : Config :=
  { enabled := false
    sleepInterval := 30
    workingHoursInterval := "always"
    workingHours := ["always", "09:00-18:00", "22:00-06:00"]
    gitRepo := "https://github.com/sonjek/mouse-stay-up" }

/-- A sample tray state as left by `onReadyInit` on `sampleConfig`
(after a Disable: Enable visible, dependent menus disabled). -/
def sampleState : TrayState :=
  { config := sampleConfig
    enableVisible := true
    disableVisible := false
    intervalMenuEnabled := false
    workingHoursMenuEnabled := false
    intervalChecks := [(-1, false), (30, true), (60, false)]
    workingHoursChecks :=
      [("always", true), ("09:00-18:00", false), ("22:00-06:00", false)]
    schedulerStarts := 0 }

/-!  ## Helper lemmas -/

lemma length_filter_mark {α : Type} [DecidableEq α]
    (items : List (α × Bool)) (v : α) :
    ((items.map fun p => (p.1, decide (p.1 = v))).filter
        (fun p => p.2)).length
      = (items.map Prod.fst).count v := by
  induction items with
  | nil => simp
  | cons a rest ih =>
      by_cases h : a.1 = v <;>
        simp [h, List.count_cons, ih, List.filter_cons]

lemma exactlyOne_updateIntervalChecks (items : List (Int × Bool))
    (v : Int) (hmem : v ∈ items.map Prod.fst)
    (hnd : (items.map Prod.fst).Nodup) :
    exactlyOneChecked (updateIntervalChecks v items) := by
  unfold exactlyOneChecked updateIntervalChecks
  rw [length_filter_mark]
  exact List.count_eq_one_of_mem hnd hmem

lemma exactlyOne_updateNightModeIntervalChecks
    (items : List (String × Bool)) (v : String)
    (hmem : v ∈ items.map Prod.fst)
    (hnd : (items.map Prod.fst).Nodup) :
    exactlyOneChecked (updateNightModeIntervalChecks v items) := by
  unfold exactlyOneChecked updateNightModeIntervalChecks
  rw [length_filter_mark]
  exact List.count_eq_one_of_mem hnd hmem

lemma setSleepIntervalSec_mem (c : Config) (v : Int)
    (h : v ∈ intervalKeys) :
    (c.setSleepIntervalSec v).sleepInterval = v := by
  simp [Config.setSleepIntervalSec, h]

lemma setWorkingHoursInterval_mem (c : Config) (l : String)
    (h : l ∈ c.workingHours) :
    (c.setWorkingHoursInterval l).workingHoursInterval = l := by
  simp [Config.setWorkingHoursInterval, Or.inl h]

lemma setWorkingHoursInterval_workingHours (c : Config) (l : String) :
    (c.setWorkingHoursInterval l).workingHours = c.workingHours := by
  unfold Config.setWorkingHoursInterval
  split <;> rfl

/-!  ## Claim theorems -/

/-- C1: from any state in which the system is currently disabled,
handling an Enable event sets the enabled flag to true, hides the
Enable item and shows the Disable item, re-enables the interval and
working-hours menu controls, and starts exactly one new Movement
Scheduler run. -/
theorem enable_event_effects (s : TrayState)
    (h : s.config.enabled = false) :
    (handleEvent s Event.enable).config.enabled = true ∧
    (handleEvent s Event.enable).enableVisible = false ∧
    (handleEvent s Event.enable).disableVisible = true ∧
    (handleEvent s Event.enable).intervalMenuEnabled = true ∧
    (handleEvent s Event.enable).workingHoursMenuEnabled = true ∧
    (handleEvent s Event.enable).schedulerStarts
      = s.schedulerStarts + 1 := by
  simp [handleEvent]

/-- Witness for C1 at the sample disabled state. -/
theorem enable_event_effects_witness :
    sampleState.config.enabled = false ∧
    ((handleEvent sampleState Event.enable).config.enabled = true ∧
      (handleEvent sampleState Event.enable).enableVisible = false ∧
      (handleEvent sampleState Event.enable).disableVisible = true ∧
      (handleEvent sampleState Event.enable).intervalMenuEnabled
        = true ∧
      (handleEvent sampleState Event.enable).workingHoursMenuEnabled
        = true ∧
      (handleEvent sampleState Event.enable).schedulerStarts
        = sampleState.schedulerStarts + 1) :=
  ⟨by decide, enable_event_effects sampleState (by decide)⟩

/-- C2: from any state in which the system is currently enabled,
handling a Disable event sets the enabled flag to false, hides the
Disable item and shows the Enable item, disables the interval and
working-hours menu controls, and starts no new scheduler run; the
model has no forced-stop mechanism at all, and a scheduler run whose
flag reads false self-terminates at its next wake, invoking nothing. -/
theorem disable_event_effects (s : TrayState)
    (h : s.config.enabled = true) :
    (handleEvent s Event.disable).config.enabled = false ∧
    (handleEvent s Event.disable).disableVisible = false ∧
    (handleEvent s Event.disable).enableVisible = true ∧
    (handleEvent s Event.disable).intervalMenuEnabled = false ∧
    (handleEvent s Event.disable).workingHoursMenuEnabled = false ∧
    (handleEvent s Event.disable).schedulerStarts
      = s.schedulerStarts ∧
    (∀ permittedAt : Nat → Bool, ∀ t : Nat, ∀ ds : List Nat,
      schedulerRun (fun _ => false) permittedAt t ds = []) := by
  refine ⟨by simp [handleEvent], by simp [handleEvent],
    by simp [handleEvent], by simp [handleEvent], by simp [handleEvent],
    by simp [handleEvent], ?_⟩
  intro permittedAt t ds
  cases ds <;> simp [schedulerRun]

/-- Witness for C2 at an enabled sample state. -/
theorem disable_event_effects_witness :
    (handleEvent sampleState Event.enable).config.enabled = true ∧
    ((handleEvent (handleEvent sampleState Event.enable)
        Event.disable).config.enabled = false ∧
      (handleEvent (handleEvent sampleState Event.enable)
        Event.disable).disableVisible = false ∧
      (handleEvent (handleEvent sampleState Event.enable)
        Event.disable).enableVisible = true ∧
      (handleEvent (handleEvent sampleState Event.enable)
        Event.disable).intervalMenuEnabled = false ∧
      (handleEvent (handleEvent sampleState Event.enable)
        Event.disable).workingHoursMenuEnabled = false ∧
      (handleEvent (handleEvent sampleState Event.enable)
        Event.disable).schedulerStarts
        = (handleEvent sampleState Event.enable).schedulerStarts ∧
      (∀ permittedAt : Nat → Bool, ∀ t : Nat, ∀ ds : List Nat,
        schedulerRun (fun _ => false) permittedAt t ds = [])) :=
  ⟨by decide,
    disable_event_effects (handleEvent sampleState Event.enable)
      (by decide)⟩

/-- C3: a Movement Scheduler run invokes the movement primitive only
at wakes where the enabled flag reads true (and the window permits);
hence if the flag is false from some time `T` on — a Disable happened
at `T` — every invocation precedes `T`: further invocations stop
immediately, well within the one-tick bound of the claim (the run
itself ends at its first wake after `T`, at most one wait duration
later). -/
theorem scheduler_moves_only_while_enabled
    (enabledAt permittedAt : Nat → Bool) (t : Nat) (ds : List Nat)
    (w T : Nat)
    (hw : w ∈ schedulerRun enabledAt permittedAt t ds)
    (hdis : ∀ u, T ≤ u → enabledAt u = false) :
    enabledAt w = true ∧ permittedAt w = true ∧ w < T := by
  have hmain : ∀ t : Nat, ∀ ds : List Nat,
      w ∈ schedulerRun enabledAt permittedAt t ds →
      enabledAt w = true ∧ permittedAt w = true := by
    intro t ds
    induction ds generalizing t with
    | nil => intro h; simp [schedulerRun] at h
    | cons d rest ih =>
        intro h
        simp only [schedulerRun] at h
        by_cases hen : enabledAt (t + d) = true
        · by_cases hperm : permittedAt (t + d) = true
          · rw [if_pos hen, if_pos hperm] at h
            rcases List.mem_cons.mp h with heq | htail
            · subst heq; exact ⟨hen, hperm⟩
            · exact ih (t + d) htail
          · rw [if_pos hen, if_neg hperm] at h
            exact ih (t + d) h
        · rw [if_neg hen] at h
          simp at h
  obtain ⟨hen, hperm⟩ := hmain t ds hw
  refine ⟨hen, hperm, ?_⟩
  by_contra hlt
  have hTw : T ≤ w := Nat.le_of_not_lt hlt
  rw [hdis w hTw] at hen
  exact Bool.false_ne_true hen

/-- Witness for C3: flag drops at time 100; the run with 30-second
ticks from time 0 invokes at 30, which is before 100. -/
theorem scheduler_moves_only_while_enabled_witness :
    (30 ∈ schedulerRun (fun u => decide (u < 100)) (fun _ => true) 0
        [30, 30, 30, 30]) ∧
    ((fun u => decide (u < 100)) 30 = true ∧
      (fun _ : Nat => true) 30 = true ∧ 30 < 100) :=
  ⟨by decide,
    scheduler_moves_only_while_enabled (fun u => decide (u < 100))
      (fun _ => true) 0 [30, 30, 30, 30] 30 100 (by decide)
      (fun u hu => by simp [Nat.not_lt.mpr hu])⟩

/-- C4: from any well-formed state whose item maps each have exactly
one checked entry, handling any event whose payload comes from the
registered items leaves exactly one interval item and exactly one
working-hours item checked; moreover a `setInterval v` stores exactly
`v` and a `setWorkingHours l` stores exactly `l`. -/
theorem checkmark_invariant_preserved (s : TrayState) (e : Event)
    (hwf : checksWellFormed s) (he : eventInRange s e)
    (hint : exactlyOneChecked s.intervalChecks)
    (hwh : exactlyOneChecked s.workingHoursChecks) :
    exactlyOneChecked (handleEvent s e).intervalChecks ∧
    exactlyOneChecked (handleEvent s e).workingHoursChecks ∧
    (∀ v : Int, e = Event.setInterval v →
      (handleEvent s e).config.sleepInterval = v) ∧
    (∀ l : String, e = Event.setWorkingHours l →
      (handleEvent s e).config.workingHoursInterval = l) := by
  obtain ⟨hkeys, hwhkeys, hnd⟩ := hwf
  cases e with
  | enable => exact ⟨hint, hwh, by simp, by simp⟩
  | disable => exact ⟨hint, hwh, by simp, by simp⟩
  | about => exact ⟨hint, hwh, by simp, by simp⟩
  | quit => exact ⟨hint, hwh, by simp, by simp⟩
  | setInterval v =>
      have hv : v ∈ intervalKeys := he
      refine ⟨?_, hwh, ?_, by simp⟩
      · exact exactlyOne_updateIntervalChecks s.intervalChecks v
          (hkeys ▸ hv) (hkeys ▸ (by decide : intervalKeys.Nodup))
      · intro v' hv'
        cases hv'
        simpa [handleEvent] using setSleepIntervalSec_mem s.config v hv
  | setWorkingHours l =>
      have hl : l ∈ s.config.workingHours := he
      have hsel : (s.config.setWorkingHoursInterval l).workingHoursInterval
          = l := setWorkingHoursInterval_mem s.config l hl
      refine ⟨hint, ?_, by simp, ?_⟩
      · simp only [handleEvent, hsel]
        exact exactlyOne_updateNightModeIntervalChecks
          s.workingHoursChecks l (hwhkeys ▸ hl) (hwhkeys ▸ hnd)
      · intro l' hl'
        cases hl'
        simpa [handleEvent] using hsel

/-- Witness for C4: the sample state, handling `setInterval 60`. -/
theorem checkmark_invariant_preserved_witness :
    (checksWellFormed sampleState ∧
      eventInRange sampleState (Event.setInterval 60) ∧
      exactlyOneChecked sampleState.intervalChecks ∧
      exactlyOneChecked sampleState.workingHoursChecks) ∧
    (exactlyOneChecked
        (handleEvent sampleState (Event.setInterval 60)).intervalChecks ∧
      exactlyOneChecked
        (handleEvent sampleState
          (Event.setInterval 60)).workingHoursChecks ∧
      (handleEvent sampleState (Event.setInterval 60)).config.sleepInterval
        = 60) :=
  have hwf : checksWellFormed sampleState := by
    refine ⟨by decide, ?_, by decide⟩
    simp [sampleState, sampleConfig]
  have he : eventInRange sampleState (Event.setInterval 60) := by
    show (60 : Int) ∈ intervalKeys
    decide
  have h := checkmark_invariant_preserved sampleState
    (Event.setInterval 60) hwf he (by decide) (by decide)
  ⟨⟨hwf, he, by decide, by decide⟩,
    h.1, h.2.1, h.2.2.1 60 rfl⟩

/-- C5: for a label other than the "always" sentinel that parses to
the range `(start, stop)`, the Time-Window Evaluator permits movement
at time `now` exactly when `now` lies in `[start, stop)`, where
`start > stop` wraps the window past midnight; in particular for
`"22:00-06:00"` (start 22:00, stop 06:00), 23:30 is permitted and
12:00 is not. -/
theorem timeWindow_eval_window_correct (label : String)
    (now start stop : Nat) (hsent : label ≠ alwaysLabel)
    (hp : parseRange label = some (start, stop)) :
    (isPermitted label now = true ↔
      (if start ≤ stop then start ≤ now ∧ now < stop
        else start ≤ now ∨ now < stop)) ∧
    isPermitted "22:00-06:00" (23 * 60 + 30) = true ∧
    isPermitted "22:00-06:00" (12 * 60) = false := by
  refine ⟨?_, by decide, by decide⟩
  unfold isPermitted
  rw [if_neg hsent, hp]
  show inWindow start stop now = true ↔ _
  unfold inWindow
  by_cases h : start ≤ stop <;> simp [h]

/-- Witness for C5 at the midnight-wrapping window `"22:00-06:00"`
(start 1320, stop 360 in minutes) and time 23:30 (1410 minutes). -/
theorem timeWindow_eval_window_correct_witness :
    ("22:00-06:00" ≠ alwaysLabel ∧
      parseRange "22:00-06:00" = some (1320, 360)) ∧
    isPermitted "22:00-06:00" 1410 = true :=
  ⟨⟨by decide, by decide⟩,
    (timeWindow_eval_window_correct "22:00-06:00" 1410 1320 360
        (by decide) (by decide)).1.mpr
      (by decide)⟩

/-- C6: for a label other than the "always" sentinel that fails to
parse as a time range, the Time-Window Evaluator fails closed: it
returns "not permitted" (it is a total function, so no error is
raised). -/
theorem timeWindow_fails_closed (label : String) (now : Nat)
    (hsent : label ≠ alwaysLabel) (hp : parseRange label = none) :
    isPermitted label now = false := by
  unfold isPermitted
  rw [if_neg hsent, hp]

/-- Witness for C6 at the unparsable label `"garbage"`. -/
theorem timeWindow_fails_closed_witness :
    ("garbage" ≠ alwaysLabel ∧ parseRange "garbage" = none) ∧
    isPermitted "garbage" 720 = false :=
  ⟨⟨by decide, by decide⟩,
    timeWindow_fails_closed "garbage" 720 (by decide) (by decide)⟩

lemma setWorkingHoursInterval_idem (c : Config) (l : String) :
    (c.setWorkingHoursInterval l).setWorkingHoursInterval l
      = c.setWorkingHoursInterval l := by
  unfold Config.setWorkingHoursInterval
  by_cases h : l ∈ c.workingHours ∨ l = alwaysLabel <;> simp [h]

lemma updateNightMode_idem (m : String)
    (items : List (String × Bool)) :
    updateNightModeIntervalChecks m
        (updateNightModeIntervalChecks m items)
      = updateNightModeIntervalChecks m items := by
  unfold updateNightModeIntervalChecks
  rw [List.map_map]
  apply List.map_congr_left
  intro p _
  simp

/-- C7: handling `setWorkingHours l` twice in succession yields
exactly the same tray state — the same Config State and the same
checkmark set — as handling it once: `SetWorkingHoursInterval`
followed by the checkmark update is idempotent. -/
theorem setWorkingHours_idempotent (s : TrayState) (l : String) :
    handleEvent (handleEvent s (Event.setWorkingHours l))
        (Event.setWorkingHours l)
      = handleEvent s (Event.setWorkingHours l) := by
  simp only [handleEvent]
  rw [setWorkingHoursInterval_idem, updateNightMode_idem]

/-- C8: the coordinator drains its queue one event at a time.  On any
queue not containing Quit, the trace of handled events is exactly the
queue — nothing dropped, delivery order preserved — and the final
state is the left fold of `handleEvent`, i.e. each event is handled
to completion before the next is dequeued. -/
theorem coordinator_in_order (s : TrayState) (evs : List Event)
    (h : Event.quit ∉ evs) :
    (runCoordinator s evs).2 = evs ∧
    (runCoordinator s evs).1 = evs.foldl handleEvent s := by
  induction evs generalizing s with
  | nil => simp [runCoordinator]
  | cons e rest ih =>
      rw [List.mem_cons, not_or] at h
      obtain ⟨hne, hrest⟩ := h
      cases e with
      | quit => exact absurd rfl hne
      | enable =>
          have hih := ih (handleEvent s Event.enable) hrest
          simp [runCoordinator, hih.1, hih.2]
      | disable =>
          have hih := ih (handleEvent s Event.disable) hrest
          simp [runCoordinator, hih.1, hih.2]
      | setInterval v =>
          have hih := ih (handleEvent s (Event.setInterval v)) hrest
          simp [runCoordinator, hih.1, hih.2]
      | setWorkingHours l =>
          have hih := ih (handleEvent s (Event.setWorkingHours l)) hrest
          simp [runCoordinator, hih.1, hih.2]
      | about =>
          have hih := ih (handleEvent s Event.about) hrest
          simp [runCoordinator, hih.1, hih.2]

/-- Witness for C8 on a concrete three-event queue. -/
theorem coordinator_in_order_witness :
    (Event.quit ∉
        [Event.enable, Event.setInterval 60, Event.disable]) ∧
    ((runCoordinator sampleState
        [Event.enable, Event.setInterval 60, Event.disable]).2
      = [Event.enable, Event.setInterval 60, Event.disable] ∧
    (runCoordinator sampleState
        [Event.enable, Event.setInterval 60, Event.disable]).1
      = [Event.enable, Event.setInterval 60,
          Event.disable].foldl handleEvent sampleState) :=
  ⟨by decide,
    coordinator_in_order sampleState
      [Event.enable, Event.setInterval 60, Event.disable] (by decide)⟩

/-- C9: when the embedded icon cannot be loaded, startup fails before
anything else happens: `onReadyInit` yields no tray state at all, so
no menu state exists, no scheduler run is started, and the coordinator
loop is never reached. -/
theorem startup_icon_failure_fatal (cfg : Config) :
    onReadyInit none cfg = none := rfl

lemma lookupItem_isSome {α : Type} [DecidableEq α]
    (items : List (α × Bool)) (k : α) :
    (lookupItem items k).isSome = true ↔ k ∈ items.map Prod.fst := by
  induction items with
  | nil => simp [lookupItem]
  | cons a rest ih =>
      by_cases h : a.1 = k
      · simp [lookupItem, h]
      · have hk : ¬k = a.1 := fun hk => h hk.symm
        simp [lookupItem, h, ih, hk]

lemma checkLookedUpItem_isSome {α : Type} [DecidableEq α]
    (items : List (α × Bool)) (k : α) :
    (checkLookedUpItem items k).isSome = true
      ↔ k ∈ items.map Prod.fst := by
  rw [← lookupItem_isSome items k]
  unfold checkLookedUpItem
  cases h : lookupItem items k <;> simp

lemma initialIntervalItems_keys :
    initialIntervalItems.map Prod.fst = intervalKeys := by decide

lemma initialWorkingHoursItems_keys (catalog : List String) :
    (initialWorkingHoursItems catalog).map Prod.fst = catalog := by
  simp [initialWorkingHoursItems, List.map_map, Function.comp_def]

/-- C10: with the icon loaded, the startup checkmark step of
`onReadyInit` finds both looked-up menu items — and hence cannot nil
dereference — exactly when the initial sleep interval is one of the
registered keys `-1`, `30`, `60` and the initial working-hours label
is a member of the catalog. -/
theorem startup_checks_iff_known_keys (asset : List Nat)
    (cfg : Config) :
    (onReadyInit (some asset) cfg).isSome = true ↔
      (cfg.sleepInterval ∈ intervalKeys ∧
        cfg.workingHoursInterval ∈ cfg.workingHours) := by
  have hi := checkLookedUpItem_isSome initialIntervalItems
    cfg.sleepInterval
  have hw := checkLookedUpItem_isSome
    (initialWorkingHoursItems cfg.workingHours)
    cfg.workingHoursInterval
  rw [initialIntervalItems_keys] at hi
  rw [initialWorkingHoursItems_keys] at hw
  unfold onReadyInit loadIcon
  cases h1 : checkLookedUpItem initialIntervalItems
      cfg.sleepInterval with
  | none =>
      rw [h1] at hi
      cases h2 : checkLookedUpItem
          (initialWorkingHoursItems cfg.workingHours)
          cfg.workingHoursInterval with
      | none => rw [h2] at hw; simp_all
      | some wc => rw [h2] at hw; simp_all
  | some ic =>
      rw [h1] at hi
      cases h2 : checkLookedUpItem
          (initialWorkingHoursItems cfg.workingHours)
          cfg.workingHoursInterval with
      | none => rw [h2] at hw; simp_all
      | some wc => rw [h2] at hw; simp_all

end MouseStayUp
